import Mathlib

/-!
Shallow embedding of `xpublish/rest.py`: a Zarr-over-HTTP read-only server
for an in-memory labelled N-dimensional dataset.  Python strings used as
chunk-coordinate keys are modelled as `List Char`; Python dicts as
insertion-ordered association lists; machine integers of Python are
unbounded, so `Int`/`Nat` model them exactly.  External collaborators
(numcodecs codec objects, the numpy/dask slicing engine and xarray's
attribute-value encoder) are modelled as function parameters, faithful to
the calls the source makes on them.
-/

namespace Xpublish

/-- Module-level constant `zarr_format = 2` of `rest.py`. -/
def zarr_format : Nat := 2

/-- Module-level constant `zarr_consolidated_format = 1` of `rest.py`. -/
def zarr_consolidated_format : Nat := 1

/-- `zarr.storage.array_meta_key`, the string `".zarray"`. -/
def array_meta_key : String := ".zarray"

/-- `zarr.storage.attrs_key`, the string `".zattrs"`. -/
def attrs_key : String := ".zattrs"

/-- `zarr.storage.group_meta_key`, the string `".zgroup"`. -/
def group_meta_key : String := ".zgroup"

/-- `xarray.backends.zarr._DIMENSION_KEY`, the reserved attribute key
`"_ARRAY_DIMENSIONS"`. -/
def DIMENSION_KEY : String := "_ARRAY_DIMENSIONS"

/-- JSON-shaped values: the codomain of attribute canonicalisation and the
content of the served metadata records. -/
inductive JValue where
  | null : JValue
  | bool : Bool → JValue
  | int : Int → JValue
  | str : String → JValue
  | arr : List JValue → JValue

/-- The element kind (numpy `dtype` character class) carried by a buffer-like
value; `ensure_ndarray(chunk).dtype == object` of the source is modelled as
the kind being `DKind.object`. -/
inductive DKind where
  | object : DKind
  | other : String → DKind
deriving DecidableEq

/-- A buffer-like value flowing through `_encode_chunk`: raw bytes together
with the element kind that `numcodecs.compat.ensure_ndarray` would report
for it. -/
structure Buffer where
  kind : DKind
  data : List Nat
deriving DecidableEq

/-- A Python `slice(start, stop)` over signed indices, as produced by
`slice_axis`. -/
structure Slice where
  start : Int
  stop : Int
deriving DecidableEq

/-- The Python exceptions the embedded code can raise: `ValueError` from
`int()` on a malformed token (the spec's `MalformedCoordinate`), `KeyError`
from a failed dict / dataset lookup (the spec's `UnknownVariable`), and
`RuntimeError` from the object-array check of `_encode_chunk` (the spec's
`UnencodableElementKind`). -/
inductive PyError where
  | valueError : PyError
  | keyError : PyError
  | runtimeError : PyError
deriving DecidableEq

/-- Python `str.split(".")` on a string modelled as a `List Char`:
`"".split(".") == [""]`, and every `.` separates two (possibly empty)
tokens. -/
def splitOnDot : List Char → List (List Char)
  | [] => [[]]
  | c :: rest =>
    if c = '.' then [] :: splitOnDot rest
    else
      match splitOnDot rest with
      | t :: ts => (c :: t) :: ts
      | [] => [[c]]

/-- Value of a decimal digit string (no sign), most significant first. -/
def digitsToNat (l : List Char) : Nat :=
  l.foldl (fun a c => 10 * a + (c.toNat - 48)) 0

/-- Python's `int(token)` on the tokens this server receives: an optional
sign followed by one or more decimal digits parses (negative values
included), anything else raises `ValueError` (here: `none`). -/
def pyInt? : List Char → Option Int
  | [] => none
  | '-' :: rest =>
    if rest ≠ [] ∧ rest.all Char.isDigit then some (-(digitsToNat rest : Int)) else none
  | '+' :: rest =>
    if rest ≠ [] ∧ rest.all Char.isDigit then some (digitsToNat rest : Int) else none
  | l =>
    if l.all Char.isDigit then some (digitsToNat l : Int) else none

/-- `slice_axis(key, chunk_size)` of `rest.py`:
`slice(key * chunk_size, (key + 1) * chunk_size)`. -/
def slice_axis (key : Int) (chunk_size : Int) : Slice :=
  { start := key * chunk_size, stop := (key + 1) * chunk_size }

/-- The left-to-right evaluation of
`tuple(slice_axis(int(i), c) for i, c in zip(ikeys, chunks))`:
the first token that `int()` rejects raises `ValueError`. -/
def get_indexers_go : List (List Char × Int) → Except PyError (List Slice)
  | [] => .ok []
  | (i, c) :: rest =>
    match pyInt? i with
    | none => .error .valueError
    | some n =>
      match get_indexers_go rest with
      | .ok sls => .ok (slice_axis n c :: sls)
      | .error e => .error e

/-- `get_indexers(key, chunks)` of `rest.py`: split the key on `"."` and zip
the tokens with the chunk sizes (`zip` truncates to the shorter of the
two), converting each zipped token with `int`. -/
def get_indexers (key : List Char) (chunks : List Int) : Except PyError (List Slice) :=
  get_indexers_go ((splitOnDot key).zip chunks)

/-- A numcodecs codec object, seen through the only method the source calls
on it: `encode`. -/
def Codec : Type := Buffer → Buffer

/-- The filter loop of `_encode_chunk`: `if filters: for f in filters:
chunk = f.encode(chunk)`.  `None` and the empty list both leave the buffer
unchanged. -/
def applyFilters (filters : Option (List Codec)) (chunk : Buffer) : Buffer :=
  match filters with
  | none => chunk
  | some fs => fs.foldl (fun c f => f c) chunk

/-- `_encode_chunk(chunk, filters, compressor)` of `rest.py`: apply the
filters in order, raise `RuntimeError` (`"cannot write object array without
object codec"`) if the post-filter buffer has object kind, then apply the
compressor if one is configured, else return the buffer unchanged. -/
def _encode_chunk (chunk : Buffer) (filters : Option (List Codec))
    (compressor : Option Codec) : Except PyError Buffer :=
  let filtered := applyFilters filters chunk
  if filtered.kind = DKind.object then .error .runtimeError
  else
    match compressor with
    | some comp => .ok (comp filtered)
    | none => .ok filtered

/-- Python dict assignment `d[k] = v` on an insertion-ordered association
list: replace in place if the key is present, append otherwise. -/
def dictSet {α : Type} : List (String × α) → String → α → List (String × α)
  | [], k, v => [(k, v)]
  | p :: rest, k, v =>
    if p.1 = k then (k, v) :: rest else p :: dictSet rest k v

/-- Python dict lookup `d[k]` (first, hence for unique keys the only,
binding). -/
def dictGet? {α : Type} : List (String × α) → String → Option α
  | [], _ => none
  | p :: rest, k => if p.1 = k then some p.2 else dictGet? rest k

/-- Lookup of the LAST binding of a key, the value Python dict semantics
retains after repeated assignment of the same key. -/
def lookupLast {α : Type} : List (String × α) → String → Option α
  | [], _ => none
  | p :: rest, k =>
    match lookupLast rest k with
    | some v => some v
    | none => if p.1 = k then some p.2 else none

/-- The `encoding` attribute of an xarray variable, restricted to the two
keys `rest.py` reads from it. -/
structure VarEncoding where
  compressor : Option Codec
  filters : Option (List Codec)

/-- A per-variable encoding-override dict (an entry of the accessor's
`encoding` argument), restricted to the three keys `extract_zarray` reads:
`none` models the key being absent (for `chunks`, Python's
`encoding.get("chunks", None)` also maps an explicit `None` there). -/
structure EncodingDict where
  compressor : Option Codec
  filters : Option (List Codec)
  chunks : Option (List Int)

/-- The empty override dict `{}`. -/
def emptyEncodingDict : EncodingDict :=
  { compressor := none, filters := none, chunks := none }

/-- An xarray `Variable`/`DataArray` as `rest.py` consumes it.  `chunks` is
dask's native chunking: `none` for a non-dask array, otherwise one list of
block sizes per dimension (dask guarantees one non-empty list per axis).
`sliceBytes` models the external array engine: the composite
`da.data[index]` → `.compute()` → `.tobytes()` pipeline that materialises
an index-range tuple into a raw buffer. -/
structure Variable where
  shape : List Nat
  dims : List String
  dtypeStr : String
  attrs : List (String × JValue)
  encoding : VarEncoding
  chunks : Option (List (List Nat))
  sliceBytes : List Slice → Buffer

/-- An xarray `Dataset`: named variables plus dataset-level attributes.
(The source's field name `variables` is a reserved word in Lean, hence
`vars`.) -/
structure Dataset where
  vars : List (String × Variable)
  attrs : List (String × JValue)

/-- `self._obj[var]`: variable lookup by name, `KeyError` (modelled as
`none`) when absent. -/
def Dataset.getVar? (ds : Dataset) (name : String) : Option Variable :=
  dictGet? ds.vars name

/-- `zarr.util.normalize_shape` as called on `da.shape`: it casts every
extent to `int`; on the `Nat` extents of this model that is the
identity. -/
def normalize_shape (shape : List Nat) : List Nat :=
  shape.map (fun s => s)

/-- The `.zarray` record produced by `extract_zarray`. -/
structure ZArray where
  compressor : Option Codec
  filters : Option (List Codec)
  chunks : List Int
  dtype : String
  fill_value : Option Unit
  order : String
  shape : List Nat
  zarr_format : Nat

/-- `extract_zarray(da, encoding)` of `rest.py`: build the metadata dict,
then if its `chunks` entry is `None`, fall back to the first block size of
each axis of the native dask chunking, and failing that to the full
shape.  No validation of an explicitly overridden `chunks` is performed
(the source's own TODO notes this). -/
def extract_zarray (da : Variable) (encoding : EncodingDict) : ZArray :=
  let chunks :=
    match encoding.chunks with
    | some c => c
    | none =>
      match da.chunks with
      | some native => native.map (fun c => (c.headD 0 : Int))
      | none => da.shape.map Int.ofNat
  { compressor :=
      match encoding.compressor with
      | some c => some c
      | none => da.encoding.compressor
    filters :=
      match encoding.filters with
      | some f => some f
      | none => da.encoding.filters
    chunks := chunks
    dtype := da.dtypeStr
    fill_value := none
    order := "C"
    shape := normalize_shape da.shape
    zarr_format := zarr_format }

/-- `extract_zattrs(da)` of `rest.py`, with the imported collaborator
`_encode_zarr_attr_value` passed as the parameter `f`: encode every
attribute value into a fresh dict, then assign the reserved dimension key
to `list(da.dims)`. -/
def extract_zattrs (f : JValue → JValue) (da : Variable) : List (String × JValue) :=
  let zattrs := da.attrs.foldl (fun acc p => dictSet acc p.1 (f p.2)) []
  dictSet zattrs DIMENSION_KEY (JValue.arr (da.dims.map JValue.str))

/-- Dataset-level `.zattrs` (`RestAccessor.get_zattrs`): every dataset
attribute value passed through `_encode_zarr_attr_value` (the parameter
`f`). -/
def get_zattrs (f : JValue → JValue) (obj : Dataset) : List (String × JValue) :=
  obj.attrs.foldl (fun acc p => dictSet acc p.1 (f p.2)) []

/-- The `.zgroup` record (`RestAccessor.get_zgroup`). -/
structure ZGroup where
  zarr_format : Nat

/-- One value of the consolidated metadata mapping. -/
inductive MetaVal where
  | attrsDoc : List (String × JValue) → MetaVal
  | groupDoc : ZGroup → MetaVal
  | arrayDoc : ZArray → MetaVal

/-- The consolidated metadata document built by
`RestAccessor.get_zmetadata`. -/
structure ZMeta where
  consolidated_format : Nat
  metadata : List (String × MetaVal)

/-- `self._encoding.get(key, {})`. -/
def encGet (enc : List (String × EncodingDict)) (key : String) : EncodingDict :=
  match dictGet? enc key with
  | some e => e
  | none => emptyEncodingDict

/-- `RestAccessor.get_zmetadata`: the dataset `.zattrs` and `.zgroup`
records followed by, per variable, its `.zattrs` and `.zarray` records
under `"<name>/…"` path keys. -/
def get_zmetadata (f : JValue → JValue) (obj : Dataset)
    (encoding : List (String × EncodingDict)) : ZMeta :=
  { consolidated_format := zarr_consolidated_format
    metadata :=
      (attrs_key, MetaVal.attrsDoc (get_zattrs f obj)) ::
      (group_meta_key, MetaVal.groupDoc { zarr_format := zarr_format }) ::
      (obj.vars.map (fun p =>
        [(p.1 ++ "/" ++ attrs_key, MetaVal.attrsDoc (extract_zattrs f p.2)),
         (p.1 ++ "/" ++ array_meta_key, MetaVal.arrayDoc (extract_zarray p.2 (encGet encoding p.1)))])).flatten }

/-- The accessor state after `RestAccessor.__init__`: the dataset handle,
the resolved name and encoding arguments, and the metadata document
computed once at registration. -/
structure RestAccessor where
  obj : Dataset
  name : String
  encoding : List (String × EncodingDict)
  metadata : ZMeta

/-- `RestAccessor.__init__(xarray_obj, name, encoding)`: resolve the
defaulted arguments and cache `self._metadata = self.get_zmetadata()`. -/
def RestAccessor.init (f : JValue → JValue) (xarray_obj : Dataset)
    (name : Option String) (encoding : Option (List (String × EncodingDict))) :
    RestAccessor :=
  let enc :=
    match encoding with
    | some e => e
    | none => []
  { obj := xarray_obj
    name :=
      match name with
      | some n => n
      | none => "<Dataset rest app>"
    encoding := enc
    metadata := get_zmetadata f xarray_obj enc }

/-- The `.zmetadata` route handler: it returns the cached `self._metadata`
and leaves the accessor state untouched (nothing in the source mutates
`_metadata` after `__init__`). -/
def serve_zmetadata (a : RestAccessor) : ZMeta × RestAccessor :=
  (a.metadata, a)

/-- Lookup in `self._metadata["metadata"]`. -/
def metaGet? (m : ZMeta) (key : String) : Option MetaVal :=
  dictGet? m.metadata key

/-- The `/{var}/{chunk}` route handler `get_key`: look the variable up
(`KeyError` when absent), fetch its cached `.zarray` record, resolve the
chunk coordinate, slice and materialise the data, and encode the resulting
buffer with the record's filters and compressor. -/
def get_key (a : RestAccessor) (var : String) (chunk : List Char) :
    Except PyError Buffer :=
  match a.obj.getVar? var with
  | none => .error .keyError
  | some da =>
    match metaGet? a.metadata (var ++ "/" ++ array_meta_key) with
    | some (MetaVal.arrayDoc arr_meta) =>
      match get_indexers chunk arr_meta.chunks with
      | .error e => .error e
      | .ok index =>
        _encode_chunk (da.sliceBytes index) arr_meta.filters arr_meta.compressor
    | _ => .error .keyError

/-! ## Helper lemmas -/

/-- Looking up the key just assigned yields the assigned value. -/
theorem dictGet?_dictSet_self {α : Type} (d : List (String × α)) (k : String) (v : α) :
    dictGet? (dictSet d k v) k = some v := by
  induction d with
  | nil => simp [dictSet, dictGet?]
  | cons p rest ih =>
    by_cases h : p.1 = k
    · simp [dictSet, dictGet?, h]
    · simp [dictSet, dictGet?, h, ih]

/-- Assignment of one key leaves lookups of other keys unchanged. -/
theorem dictGet?_dictSet_ne {α : Type} (d : List (String × α)) (k k' : String) (v : α)
    (h : k' ≠ k) : dictGet? (dictSet d k v) k' = dictGet? d k' := by
  induction d with
  | nil => simp [dictSet, dictGet?, Ne.symm h]
  | cons p rest ih =>
    by_cases hp : p.1 = k
    · simp [dictSet, dictGet?, hp, Ne.symm h]
    · simp [dictSet, dictGet?, hp, ih]

/-- A key absent from an association list has no last binding. -/
theorem lookupLast_eq_none {α : Type} (l : List (String × α)) (k : String)
    (h : k ∉ l.map Prod.fst) : lookupLast l k = none := by
  induction l with
  | nil => rfl
  | cons p rest ih =>
    simp only [List.map_cons, List.mem_cons] at h
    push_neg at h
    simp [lookupLast, ih h.2, Ne.symm h.1]

/-- With unique keys, the last binding of a present key is its value. -/
theorem lookupLast_of_mem {α : Type} (l : List (String × α)) (k : String) (v : α)
    (hnd : (l.map Prod.fst).Nodup) (hmem : (k, v) ∈ l) :
    lookupLast l k = some v := by
  induction l with
  | nil => cases hmem
  | cons p rest ih =>
    simp only [List.map_cons, List.nodup_cons] at hnd
    rcases List.mem_cons.mp hmem with h | h
    · subst h
      simp [lookupLast, lookupLast_eq_none rest k hnd.1]
    · have := ih hnd.2 h
      simp [lookupLast, this]

/-- Lookup after the dict-building fold of `extract_zattrs`/`get_zattrs`:
the last binding of the key in the source list wins, encoded; otherwise the
accumulator's binding is still visible. -/
theorem dictGet?_foldl_dictSet {α β : Type} (f : α → β) (l : List (String × α))
    (acc : List (String × β)) (k : String) :
    dictGet? (l.foldl (fun a p => dictSet a p.1 (f p.2)) acc) k =
      match lookupLast l k with
      | some v => some (f v)
      | none => dictGet? acc k := by
  induction l generalizing acc with
  | nil => rfl
  | cons p rest ih =>
    simp only [List.foldl_cons, lookupLast]
    rw [ih]
    cases hrest : lookupLast rest k with
    | some v => simp
    | none =>
      by_cases hk : p.1 = k
      · subst hk
        simp [dictGet?_dictSet_self]
      · simp [hk, dictGet?_dictSet_ne _ _ _ _ (fun hh => hk hh.symm)]

/-- The only error `get_indexers_go` ever produces is `ValueError`. -/
theorem get_indexers_go_error_val (l : List (List Char × Int)) (e : PyError)
    (h : get_indexers_go l = .error e) : e = PyError.valueError := by
  induction l with
  | nil => cases h
  | cons q rest ih =>
    obtain ⟨i, c⟩ := q
    simp only [get_indexers_go] at h
    cases hq : pyInt? i with
    | none =>
      rw [hq] at h
      cases h
      rfl
    | some n =>
      rw [hq] at h
      cases hrest : get_indexers_go rest with
      | ok sls => rw [hrest] at h; cases h
      | error e' =>
        rw [hrest] at h
        cases h
        exact ih hrest

/-- `get_indexers_go` raises `ValueError` exactly when some zipped token
fails to parse as an integer. -/
theorem get_indexers_go_error_iff (l : List (List Char × Int)) :
    get_indexers_go l = .error PyError.valueError ↔ ∃ p ∈ l, pyInt? p.1 = none := by
  induction l with
  | nil => simp [get_indexers_go]
  | cons q rest ih =>
    obtain ⟨i, c⟩ := q
    have hmem : (∃ p ∈ (i, c) :: rest, pyInt? p.1 = none) ↔
        (pyInt? i = none ∨ ∃ p ∈ rest, pyInt? p.1 = none) := by
      constructor
      · rintro ⟨p, hp, hpn⟩
        rcases List.mem_cons.mp hp with hp | hp
        · subst hp; exact Or.inl hpn
        · exact Or.inr ⟨p, hp, hpn⟩
      · rintro (h | ⟨p, hp, hpn⟩)
        · exact ⟨(i, c), List.mem_cons_self _ _, h⟩
        · exact ⟨p, List.mem_cons_of_mem _ hp, hpn⟩
    rw [hmem]
    cases hq : pyInt? i with
    | none => simp [get_indexers_go, hq]
    | some n =>
      simp only [get_indexers_go, hq]
      rw [← ih]
      cases hrest : get_indexers_go rest with
      | ok sls => simp [hrest, hq]
      | error e => simp [hrest, hq]

/-- Successful elementwise parsing with matching lengths drives
`get_indexers_go` to the `zipWith` of `slice_axis`. -/
theorem get_indexers_go_ok {tokens : List (List Char)} {ixs : List Int}
    (chunks : List Int)
    (htok : List.Forall₂ (fun t i => pyInt? t = some i) tokens ixs)
    (hlen : ixs.length = chunks.length) :
    get_indexers_go (tokens.zip chunks) = .ok (List.zipWith slice_axis ixs chunks) := by
  induction htok generalizing chunks with
  | nil =>
    have : chunks = [] := by
      cases chunks with
      | nil => rfl
      | cons c cs => simp at hlen
    subst this
    rfl
  | @cons t i tokens' ixs' ht htail ih =>
    cases chunks with
    | nil => simp at hlen
    | cons c cs =>
      simp only [List.length_cons, Nat.succ_inj] at hlen
      rw [List.zip_cons_cons, List.zipWith_cons_cons]
      simp only [get_indexers_go, ht]
      rw [ih cs hlen]

/-- Element `k` of the zipped slice list is `slice_axis` of the two `k`-th
entries. -/
theorem zipWith_slice_axis_get? (ixs chunks : List Int) (k : Nat)
    (hk1 : k < ixs.length) (hk2 : k < chunks.length) :
    (List.zipWith slice_axis ixs chunks).get? k =
      some (slice_axis (ixs.get ⟨k, hk1⟩) (chunks.get ⟨k, hk2⟩)) := by
  induction ixs generalizing chunks k with
  | nil => simp at hk1
  | cons i is ih =>
    cases chunks with
    | nil => simp at hk2
    | cons c cs =>
      cases k with
      | zero => rfl
      | succ k =>
        simp only [List.zipWith_cons_cons, List.get?_cons_succ]
        exact ih cs k (Nat.lt_of_succ_lt_succ hk1) (Nat.lt_of_succ_lt_succ hk2)

/-! ## Concrete instances used by witnesses and counterexamples -/

/-- A do-nothing materialiser standing in for the external array engine in
concrete variables. -/
def nullSliceBytes : List Slice → Buffer :=
  fun _ => { kind := DKind.other "f", data := [] }

/-- A 4×4 float variable with no native chunking and a `units` attribute,
the scenario variable of the spec's §8. -/
def varPlain : Variable :=
  { shape := [4, 4]
    dims := ["x", "y"]
    dtypeStr := "<f8"
    attrs := [("units", JValue.str "m")]
    encoding := { compressor := none, filters := none }
    chunks := none
    sliceBytes := nullSliceBytes }

/-- A 4×4 variable backed by a dask array with native per-axis block sizes
`((2, 2), (3, 1))`. -/
def varDask : Variable :=
  { shape := [4, 4]
    dims := ["x", "y"]
    dtypeStr := "<f8"
    attrs := []
    encoding := { compressor := none, filters := none }
    chunks := some [[2, 2], [3, 1]]
    sliceBytes := nullSliceBytes }

/-- A 1-D variable, used to exhibit an unvalidated chunks override. -/
def varOneD : Variable :=
  { shape := [4]
    dims := ["x"]
    dtypeStr := "<f8"
    attrs := []
    encoding := { compressor := none, filters := none }
    chunks := none
    sliceBytes := nullSliceBytes }

/-- A 1-D variable whose attribute mapping already binds the reserved
dimension key. -/
def varReservedAttr : Variable :=
  { shape := [4]
    dims := ["x"]
    dtypeStr := "<f8"
    attrs := [(DIMENSION_KEY, JValue.int 5)]
    encoding := { compressor := none, filters := none }
    chunks := none
    sliceBytes := nullSliceBytes }

/-- An override dict whose `chunks` length does not match the variable's
rank. -/
def encBadChunks : EncodingDict :=
  { compressor := none, filters := none, chunks := some [2, 2] }

/-- Dataset holding only `varOneD` under the name `"v"`. -/
def dsOneD : Dataset := { vars := [("v", varOneD)], attrs := [] }

/-- A codec that reverses the byte list. -/
def reverseCodec : Codec :=
  fun b => { kind := b.kind, data := b.data.reverse }

/-- A codec that drops the first byte. -/
def dropCodec : Codec :=
  fun b => { kind := b.kind, data := b.data.drop 1 }

/-- A small non-object buffer. -/
def bufF8 : Buffer := { kind := DKind.other "f", data := [1, 2, 3, 4] }

/-! ## Claims -/

/-- C1 (corrected at `claim_C1_counterexample`): coordinate resolution
raises `ValueError` (the spec's `MalformedCoordinate`) exactly when one of
the tokens zipped with a chunk size fails integer parsing; a token count
differing from the chunk-size vector's length is silently truncated by
`zip`, not rejected, and any error raised is `ValueError`. -/
theorem claim_C1_malformed_iff (key : List Char) (chunks : List Int) :
    (get_indexers key chunks = .error PyError.valueError ↔
      ∃ p ∈ (splitOnDot key).zip chunks, pyInt? p.1 = none) ∧
    (∀ e, get_indexers key chunks = .error e → e = PyError.valueError) :=
  ⟨get_indexers_go_error_iff _, fun e h => get_indexers_go_error_val _ e h⟩

/-- C1 witness: the coordinate `"a.b"` against chunk sizes `[2, 2]` raises
`ValueError`. -/
theorem claim_C1_malformed_iff_witness :
    get_indexers ['a', '.', 'b'] [2, 2] = .error PyError.valueError :=
  (claim_C1_malformed_iff ['a', '.', 'b'] [2, 2]).1.mpr
    ⟨(['a'], 2), by decide, by decide⟩

/-- C1 counterexample: the claim's failure condition does not hold in the
code.  Coordinate `"0"` against the two chunk sizes `[2, 2]` has the wrong
token count yet resolves successfully, and the negative (hence not
non-negative) token `"-1"` also resolves successfully. -/
theorem claim_C1_counterexample :
    (splitOnDot ['0']).length ≠ ([(2 : Int), 2]).length ∧
    get_indexers ['0'] [2, 2] = .ok [{ start := 0, stop := 2 }] ∧
    get_indexers ['-', '1'] [2] = .ok [{ start := -2, stop := 0 }] :=
  ⟨by decide, rfl, rfl⟩

/-- C2: for a coordinate string all of whose tokens parse as (non-negative)
integers `ixs`, with as many tokens as chunk sizes, `get_indexers` succeeds
and produces on axis `k` exactly the half-open range
`[ixs[k] * chunks[k], (ixs[k] + 1) * chunks[k])`; the array's shape is not
consulted (it is not even an argument), so no bounds check occurs. -/
theorem claim_C2_resolver_ranges (key : List Char) (chunks ixs : List Int)
    (htok : List.Forall₂ (fun t i => pyInt? t = some i) (splitOnDot key) ixs)
    (hnn : ∀ i ∈ ixs, 0 ≤ i)
    (hlen : ixs.length = chunks.length) :
    get_indexers key chunks = .ok (List.zipWith slice_axis ixs chunks) ∧
    ∀ (k : Nat) (hk1 : k < ixs.length) (hk2 : k < chunks.length),
      (List.zipWith slice_axis ixs chunks).get? k =
        some { start := ixs.get ⟨k, hk1⟩ * chunks.get ⟨k, hk2⟩,
               stop := (ixs.get ⟨k, hk1⟩ + 1) * chunks.get ⟨k, hk2⟩ } := by
  refine ⟨get_indexers_go_ok chunks htok hlen, ?_⟩
  intro k hk1 hk2
  rw [zipWith_slice_axis_get? ixs chunks k hk1 hk2]
  rfl

/-- C2 witness: chunk `"5.5"` with chunk sizes `[2, 2]` (well out of range
for the spec's 4×4 scenario array) resolves to `[10, 12) × [10, 12)` — no
bounds check. -/
theorem claim_C2_resolver_ranges_witness :
    get_indexers ['5', '.', '5'] [2, 2] =
      .ok [{ start := 10, stop := 12 }, { start := 10, stop := 12 }] := by
  have htok : List.Forall₂ (fun t i => pyInt? t = some i)
      (splitOnDot ['5', '.', '5']) [5, 5] :=
    List.Forall₂.cons (by decide) (List.Forall₂.cons (by decide) List.Forall₂.nil)
  exact (claim_C2_resolver_ranges ['5', '.', '5'] [2, 2] [5, 5] htok
    (by decide) (by decide)).1

/-- C4: `_encode_chunk` applies the filters sequentially in declared order
(each consuming the previous output), then — when the filtered buffer is
encodable — applies the compressor if configured and otherwise returns the
filtered buffer unchanged. -/
theorem claim_C4_encode_order (chunk : Buffer) (f : Codec) (fs : List Codec)
    (filters : Option (List Codec)) (comp : Codec) :
    (_encode_chunk chunk (some (f :: fs)) none = _encode_chunk (f chunk) (some fs) none ∧
     _encode_chunk chunk (some (f :: fs)) (some comp) =
       _encode_chunk (f chunk) (some fs) (some comp)) ∧
    ((applyFilters filters chunk).kind ≠ DKind.object →
      _encode_chunk chunk filters (some comp) = .ok (comp (applyFilters filters chunk))) ∧
    ((applyFilters filters chunk).kind ≠ DKind.object →
      _encode_chunk chunk filters none = .ok (applyFilters filters chunk)) := by
  refine ⟨⟨rfl, rfl⟩, ?_, ?_⟩ <;> intro h <;> simp [_encode_chunk, h]

/-- C4 witness: reversing then dropping a byte of a concrete non-object
buffer, with no compressor, returns the filtered bytes unchanged. -/
theorem claim_C4_encode_order_witness :
    _encode_chunk bufF8 (some [reverseCodec, dropCodec]) none =
      .ok { kind := DKind.other "f", data := [3, 2, 1] } :=
  (claim_C4_encode_order bufF8 reverseCodec [dropCodec]
    (some [reverseCodec, dropCodec]) reverseCodec).2.2 (by decide)

/-- C5: `_encode_chunk` raises `RuntimeError` (the spec's
`UnencodableElementKind`) exactly when the post-filter buffer has object
kind; the check sits after the filter loop (it inspects the filtered
buffer) and before compression (it fires for every configured compressor,
which is then never applied). -/
theorem claim_C5_object_check (chunk : Buffer) (filters : Option (List Codec))
    (comp : Option Codec) :
    _encode_chunk chunk filters comp = .error PyError.runtimeError ↔
      (applyFilters filters chunk).kind = DKind.object := by
  unfold _encode_chunk
  by_cases h : (applyFilters filters chunk).kind = DKind.object
  · simp [h]
  · cases comp <;> simp [h]

/-- C3: the `chunks` field of the produced `.zarray` record follows the
precedence explicit override → native dask chunking (first block size per
axis) → full shape; in particular a variable with neither yields
`chunks = shape`. -/
theorem claim_C3_chunks_precedence (da : Variable) (enc : EncodingDict) :
    (∀ c, enc.chunks = some c → (extract_zarray da enc).chunks = c) ∧
    (∀ native, enc.chunks = none → da.chunks = some native →
      (extract_zarray da enc).chunks = native.map (fun b => (b.headD 0 : Int))) ∧
    (enc.chunks = none → da.chunks = none →
      (extract_zarray da enc).chunks = da.shape.map Int.ofNat) := by
  refine ⟨?_, ?_, ?_⟩ <;> intros <;> simp [extract_zarray, *]

/-- C3 witness: override `[2, 2]` wins on `varPlain`; without an override
`varDask` gets its native first block sizes `[2, 3]`; and the unchunked
`varPlain` falls back to its full shape `[4, 4]`. -/
theorem claim_C3_chunks_precedence_witness :
    (extract_zarray varPlain
      { compressor := none, filters := none, chunks := some [2, 2] }).chunks = [2, 2] ∧
    (extract_zarray varDask emptyEncodingDict).chunks = [2, 3] ∧
    (extract_zarray varPlain emptyEncodingDict).chunks = [4, 4] :=
  ⟨(claim_C3_chunks_precedence varPlain _).1 [2, 2] rfl,
   (claim_C3_chunks_precedence varDask emptyEncodingDict).2.1 [[2, 2], [3, 1]] rfl rfl,
   (claim_C3_chunks_precedence varPlain emptyEncodingDict).2.2 rfl rfl⟩

/-- C6 (corrected at `claim_C6_counterexample`): when no explicit `chunks`
override is supplied, and granted the collaborator invariants that xarray
variables have one dimension name per axis and dask one block list per
axis, the produced record satisfies
`len(chunks) = len(shape) = len(dims)`.  An explicit override is stored
unvalidated, so it can break the invariant while registration still
succeeds. -/
theorem claim_C6_len_invariant (da : Variable) (enc : EncodingDict)
    (hdims : da.dims.length = da.shape.length)
    (hnative : ∀ native, da.chunks = some native → native.length = da.shape.length)
    (hoverride : enc.chunks = none) :
    (extract_zarray da enc).chunks.length = (extract_zarray da enc).shape.length ∧
    (extract_zarray da enc).shape.length = da.dims.length := by
  cases hda : da.chunks with
  | none => simp [extract_zarray, hoverride, hda, normalize_shape, hdims]
  | some native =>
    simp [extract_zarray, hoverride, hda, normalize_shape, hdims, hnative native hda]

/-- C6 witness: on the unchunked, override-free 4×4 scenario variable all
three lengths are 2. -/
theorem claim_C6_len_invariant_witness :
    (extract_zarray varPlain emptyEncodingDict).chunks.length = 2 ∧
    (extract_zarray varPlain emptyEncodingDict).shape.length = 2 ∧
    varPlain.dims.length = 2 := by
  have h := claim_C6_len_invariant varPlain emptyEncodingDict rfl
    (fun native hh => by simp [varPlain] at hh) rfl
  refine ⟨?_, ?_, rfl⟩
  · rw [h.1, h.2]; rfl
  · rw [h.2]; rfl

/-- C6 counterexample: the mismatched override `chunks=[2, 2]` on the 1-D
variable `varOneD` produces a record with `len(chunks) = 2` but
`len(shape) = len(dims) = 1`, and registration still succeeds: the
consolidated document is built with all four entries. -/
theorem claim_C6_counterexample :
    (extract_zarray varOneD encBadChunks).chunks.length = 2 ∧
    (extract_zarray varOneD encBadChunks).shape.length = 1 ∧
    varOneD.dims.length = 1 ∧
    (get_zmetadata (fun v => v) dsOneD [("v", encBadChunks)]).metadata.length = 4 :=
  ⟨rfl, rfl, rfl, rfl⟩

/-- C7: the consolidated document is computed once by `__init__` and the
`.zmetadata` route returns that cached value without touching the accessor
state, so any two requests against the same registered dataset return the
identical document. -/
theorem claim_C7_metadata_once (f : JValue → JValue) (ds : Dataset)
    (name : Option String) (encoding : Option (List (String × EncodingDict))) :
    (RestAccessor.init f ds name encoding).metadata =
      get_zmetadata f ds (RestAccessor.init f ds name encoding).encoding ∧
    (serve_zmetadata (RestAccessor.init f ds name encoding)).2 =
      RestAccessor.init f ds name encoding ∧
    (serve_zmetadata ((serve_zmetadata (RestAccessor.init f ds name encoding)).2)).1 =
      (serve_zmetadata (RestAccessor.init f ds name encoding)).1 :=
  ⟨rfl, rfl, rfl⟩

/-- C8: a chunk request for a variable name absent from the dataset fails
with `KeyError` (the spec's `UnknownVariable`) whatever the coordinate
string — in particular before any coordinate resolution, since even a
malformed coordinate still yields `KeyError`, not `ValueError`. -/
theorem claim_C8_unknown_variable (a : RestAccessor) (var : String)
    (chunk : List Char) (h : a.obj.getVar? var = none) :
    get_key a var chunk = .error PyError.keyError := by
  unfold get_key
  rw [h]

/-- C8 witness: requesting variable `"nonexistent"` with the malformed
coordinate `"a.b"` on an accessor over the empty dataset yields
`KeyError`. -/
theorem claim_C8_unknown_variable_witness :
    get_key (RestAccessor.init (fun v => v) { vars := [], attrs := [] } none none)
      "nonexistent" ['a', '.', 'b'] = .error PyError.keyError :=
  claim_C8_unknown_variable
    (RestAccessor.init (fun v => v) { vars := [], attrs := [] } none none)
    "nonexistent" ['a', '.', 'b'] rfl

/-- C9 (corrected at `claim_C9_counterexample`): the `.zattrs` record maps
every attribute key other than the reserved dimension key to its
canonically encoded value, and maps the reserved key to the ordered
dimension-name list (overriding any attribute of that name, see C10). -/
theorem claim_C9_zattrs (f : JValue → JValue) (da : Variable)
    (hnd : (da.attrs.map Prod.fst).Nodup) :
    (∀ k v, (k, v) ∈ da.attrs → k ≠ DIMENSION_KEY →
      dictGet? (extract_zattrs f da) k = some (f v)) ∧
    dictGet? (extract_zattrs f da) DIMENSION_KEY =
      some (JValue.arr (da.dims.map JValue.str)) := by
  constructor
  · intro k v hmem hne
    unfold extract_zattrs
    rw [dictGet?_dictSet_ne _ _ _ _ hne]
    rw [dictGet?_foldl_dictSet]
    rw [lookupLast_of_mem da.attrs k v hnd hmem]
  · unfold extract_zattrs
    exact dictGet?_dictSet_self _ _ _

/-- C9 witness: on the §8 scenario variable the served `.zattrs` binds
`"units"` to the encoded `"m"` and `"_ARRAY_DIMENSIONS"` to
`["x", "y"]`. -/
theorem claim_C9_zattrs_witness :
    dictGet? (extract_zattrs (fun v => v) varPlain) "units" = some (JValue.str "m") ∧
    dictGet? (extract_zattrs (fun v => v) varPlain) DIMENSION_KEY =
      some (JValue.arr [JValue.str "x", JValue.str "y"]) := by
  have h := claim_C9_zattrs (fun v => v) varPlain (by decide)
  exact ⟨h.1 "units" (JValue.str "m") (List.mem_cons_self _ _) (by decide), h.2⟩

/-- C9 counterexample: the claim as stated fails for a variable whose
attribute mapping itself binds the reserved key: the attribute
`("_ARRAY_DIMENSIONS", 5)` is in the mapping and the identity encoder
keeps `5`, yet the served record does not bind the key to `5`. -/
theorem claim_C9_counterexample :
    (DIMENSION_KEY, JValue.int 5) ∈ varReservedAttr.attrs ∧
    (fun (v : JValue) => v) (JValue.int 5) = JValue.int 5 ∧
    dictGet? (extract_zattrs (fun v => v) varReservedAttr) DIMENSION_KEY ≠
      some (JValue.int 5) := by
  refine ⟨List.mem_cons_self _ _, rfl, ?_⟩
  intro h
  have heq : dictGet? (extract_zattrs (fun (v : JValue) => v) varReservedAttr)
      DIMENSION_KEY = some (JValue.arr [JValue.str "x"]) := rfl
  rw [heq] at h
  injection h with h'
  cases h'

/-- C10: when the attribute mapping itself binds the reserved dimension
key, the served record silently binds that key to the dimension-name list
instead; whenever the encoded original differs from that list, it is not
preserved. -/
theorem claim_C10_reserved_overwrite (f : JValue → JValue) (da : Variable)
    (v : JValue) (hmem : (DIMENSION_KEY, v) ∈ da.attrs)
    (hne : f v ≠ JValue.arr (da.dims.map JValue.str)) :
    dictGet? (extract_zattrs f da) DIMENSION_KEY =
      some (JValue.arr (da.dims.map JValue.str)) ∧
    dictGet? (extract_zattrs f da) DIMENSION_KEY ≠ some (f v) := by
  have h : dictGet? (extract_zattrs f da) DIMENSION_KEY =
      some (JValue.arr (da.dims.map JValue.str)) := by
    unfold extract_zattrs
    exact dictGet?_dictSet_self _ _ _
  refine ⟨h, ?_⟩
  rw [h]
  intro hc
  injection hc with hc'
  exact hne hc'.symm

/-- C10 witness: on `varReservedAttr` with the identity encoder the served
record binds the reserved key to `["x"]`, not to the original `5`. -/
theorem claim_C10_reserved_overwrite_witness :
    dictGet? (extract_zattrs (fun x => x) varReservedAttr) DIMENSION_KEY =
      some (JValue.arr [JValue.str "x"]) ∧
    dictGet? (extract_zattrs (fun x => x) varReservedAttr) DIMENSION_KEY ≠
      some (JValue.int 5) := by
  have h := claim_C10_reserved_overwrite (fun x => x) varReservedAttr (JValue.int 5)
    (List.mem_cons_self _ _) (fun hc => by cases hc)
  exact ⟨h.1, h.2⟩

end Xpublish
